import Mathlib

/-!
Verification of the status-aggregation engine of `funkedupshift`
(`src/lambda/api/internet_dashboard.py` and `src/lambda/api/our_properties.py`)
against its natural-language specification.

The Python code is shallowly embedded: pure helpers become Lean functions on
`List Char` / `String`, the network and DynamoDB boundary becomes explicit
environment records, and `except`-absorbed failures become `Option` / `Except`
values.  Python string primitives (`strip`, `lower`, slicing, `replace`,
`startswith`) are modelled by explicit list-of-character functions so that all
definitions are executable and kernel-reducible.
-/

namespace FunkedUpShift

/-! ## Python string primitives, modelled on the character list -/

/-- Model of Python `str.strip()` on a character list: drop whitespace from
both ends. -/
def stripL (l : List Char) : List Char :=
  ((l.dropWhile Char.isWhitespace).reverse.dropWhile Char.isWhitespace).reverse

/-- Model of Python `str.strip()`. -/
def pyStrip (s : String) : String := ⟨stripL s.data⟩

/-- Model of Python `str.lower()` (ASCII letters, as the code only handles
URLs and domains). -/
def pyLower (s : String) : String := ⟨s.data.map Char.toLower⟩

/-- Model of Python `str.startswith(pre)`. -/
def pyStartsWith (s pre : String) : Bool := pre.data.isPrefixOf s.data

/-- Model of Python slicing `s[:n]`: the first `n` characters. -/
def pyTake (s : String) (n : Nat) : String := ⟨s.data.take n⟩

/-- Model of Python `s[n:]` for dropping a prefix of known length. -/
def pyDrop (s : String) (n : Nat) : String := ⟨s.data.drop n⟩

/-- Helper for `replaceL`, structurally recursive on a fuel bound (one unit
of fuel per character consumed, so `l.length` suffices). -/
def replaceFuel (pat rep : List Char) : Nat → List Char → List Char
  | 0, l => l
  | _ + 1, [] => []
  | fuel + 1, c :: rest =>
    if pat ≠ [] ∧ pat.isPrefixOf (c :: rest) then
      rep ++ replaceFuel pat rep fuel ((c :: rest).drop pat.length)
    else
      c :: replaceFuel pat rep fuel rest

/-- Model of Python `str.replace(pat, rep)`: replace all non-overlapping
occurrences, scanning left to right. -/
def replaceL (pat rep : List Char) (l : List Char) : List Char :=
  replaceFuel pat rep l.length l

/-- Model of Python `str.replace(pat, rep)` on strings. -/
def pyReplace (s pat rep : String) : String := ⟨replaceL pat.data rep.data s.data⟩

/-- Model of Python `str.rstrip("/")`. -/
def pyRstripSlash (s : String) : String :=
  ⟨(s.data.reverse.dropWhile (fun c => c == '/')).reverse⟩

/-! ## `internet_dashboard.py`: the status classifier -/

/-- Embedding of `_status_from_http(status_code, response_time_ms)`:
map an HTTP result to `up` / `degraded` / `down`.  `none` models Python
`None`. -/
def status_from_http (statusCode : Option Int) (responseTimeMs : Option Int) : String :=
  match statusCode with
  | none => "down"
  | some c =>
    if 200 ≤ c ∧ c < 300 then
      match responseTimeMs with
      | some t => if 3000 ≤ t then "degraded" else "up"
      | none => "up"
    else if 300 ≤ c ∧ c < 500 then "degraded"
    else "down"

/-- Outcome of the `urlopen` HEAD request issued by `_check_url_http`:
a response with a status, an `HTTPError` carrying a code, or any other
exception (`URLError` / `OSError` / transport, DNS, TLS, timeout). -/
inductive HttpOutcome where
  | ok (status : Int) (elapsedMs : Int)
  | httpError (code : Int) (elapsedMs : Int)
  | failure
deriving DecidableEq, Repr

/-- Embedding of `_check_url_http(url)`: returns
`(status, response_time_ms)` or `(None, None)` on failure.  The network
interaction itself is the `HttpOutcome` input. -/
def check_url_http : HttpOutcome → Option Int × Option Int
  | .ok s e => (some s, some e)
  | .httpError c e => (some c, some e)
  | .failure => (none, none)

/-- One per-target Probe Result as built by every provider. -/
structure SiteResult where
  domain : String
  status : String
  source : String
  responseTimeMs : Option Int
deriving DecidableEq, Repr

/-- Embedding of `check_one(domain)` inside `_fetch_level1_http`: probe
`https://{domain}` and classify. -/
def check_one (probe : String → HttpOutcome) (domain : String) : SiteResult :=
  let r := check_url_http (probe domain)
  { domain := domain
    status := status_from_http r.1 r.2
    source := "http"
    responseTimeMs := r.2 }

/-- Embedding of `_fetch_level1_http(sites)`.  The Python code fans out one
probe per site over a thread pool, collects the results in a dict keyed by
domain and projects them back in input order; since `check_one` is a function
of the domain alone, that projection is exactly a `map` in input order. -/
def fetch_level1_http (probe : String → HttpOutcome) (sites : List String) : List SiteResult :=
  sites.map (check_one probe)

/-! ## `internet_dashboard.py`: secondary signal providers -/

/-- The URL-key computation shared by levels 2 and 3:
`url.replace("https://", "").replace("http://", "").rstrip("/")`, then
`url.split("/")[0]` when a slash remains. -/
def provider_url_key (u : String) : String :=
  let l := replaceL "http://".data [] (replaceL "https://".data [] u.data)
  let l := (l.reverse.dropWhile (fun c => c == '/')).reverse
  let l := if l.contains '/' then l.takeWhile (fun c => c != '/') else l
  ⟨l⟩

/-- One monitor record of the UptimeRobot `getMonitors` response:
`m.get("url") or ""` and `m.get("status", 9)`. -/
structure URMonitor where
  url : String
  status : Option Int
deriving DecidableEq, Repr

/-- UptimeRobot's own status vocabulary mapped to the tri-state value:
`"up" if st == 2 else ("degraded" if st in (8, 9) else "down")`. -/
def ur_status (st : Int) : String :=
  if st = 2 then "up" else if st = 8 ∨ st = 9 then "degraded" else "down"

/-- Embedding of `_fetch_level2_uptimerobot(sites)`.  `key` is presence of
`UPTIMEROBOT_API_KEY`; `resp = none` models the batched remote call (or its
JSON decoding) raising, which the function's `except` turns into `None`.
The `by_url` dict is keyed by `provider_url_key`; a later monitor with the
same key overwrites an earlier one, hence the reversed `find?`. -/
def fetch_level2_uptimerobot (key : Bool) (resp : Option (List URMonitor))
    (sites : List String) : Option (List SiteResult) :=
  if !key then none
  else
    match resp with
    | none => none
    | some monitors =>
      some (sites.map (fun domain =>
        let m := monitors.reverse.find? (fun m => provider_url_key m.url == domain)
        let status := match m with
          | some m => ur_status (m.status.getD 9)
          | none => "down"
        { domain := domain, status := status, source := "uptimerobot",
          responseTimeMs := none }))

/-- One test record of the StatusCake `uptime` response:
`t.get("website_url") or ""` and `t.get("uptime", 0)`. -/
structure SCTest where
  website_url : String
  uptime : Option Int
deriving DecidableEq, Repr

/-- Embedding of `_fetch_level3_statuscake(sites)`; same shape as level 2
with StatusCake's uptime-percentage bands. -/
def fetch_level3_statuscake (key : Bool) (resp : Option (List SCTest))
    (sites : List String) : Option (List SiteResult) :=
  if !key then none
  else
    match resp with
    | none => none
    | some tests =>
      some (sites.map (fun domain =>
        let t := tests.reverse.find? (fun t => provider_url_key t.website_url == domain)
        let status := match t with
          | some t =>
            let uptime := t.uptime.getD 0
            if 99 ≤ uptime then "up" else if 95 ≤ uptime then "degraded" else "down"
          | none => "down"
        { domain := domain, status := status, source := "statuscake",
          responseTimeMs := none }))

/-- Body of one Site Informant per-domain response:
`body.get("isOnline", False)`, `body.get("uptimePercent", 0)`,
`body.get("averageResponseMs")`. -/
structure SIBody where
  isOnline : Bool
  uptimePercent : Int
  averageResponseMs : Option Int
deriving DecidableEq, Repr

/-- The per-domain entry built by `_fetch_level4_site_informant`; `none`
models the per-domain request raising (caught, classified `down`). -/
def si_entry (si : String → Option SIBody) (domain : String) : SiteResult :=
  match si domain with
  | some body =>
    { domain := domain
      status := if body.isOnline then "up"
                else if 90 ≤ body.uptimePercent then "degraded" else "down"
      source := "siteinformant"
      responseTimeMs := body.averageResponseMs }
  | none =>
    { domain := domain, status := "down", source := "siteinformant",
      responseTimeMs := none }

/-- Embedding of `_fetch_level4_site_informant(sites)`: one entry per site,
returned only when some entry is not `down` (`has_valid`), else `None`. -/
def fetch_level4_site_informant (si : String → Option SIBody)
    (sites : List String) : Option (List SiteResult) :=
  let results := sites.map (si_entry si)
  if results.any (fun r => r.status != "down") then some results else none

/-! ## `internet_dashboard.py`: DynamoDB cache store -/

/-- The value stored under the fixed cache key `(INTERNET_DASHBOARD, STATUS)`:
either a JSON-encoded list of site results, or a payload that fails the
`isinstance(sites, list)` / JSON-decoding checks of the reader. -/
inductive CacheCell where
  | snapshot (xs : List SiteResult)
  | corrupt
deriving DecidableEq, Repr

/-- Embedding of `_fetch_level5_dynamodb()`: `table` is presence of
`TABLE_NAME`, `readOk = false` models the DynamoDB read raising (caught,
`None`).  A decoded list is returned only when `len(sites) >= 1`. -/
def fetch_level5_dynamodb (table readOk : Bool) (st : Option CacheCell) :
    Option (List SiteResult) :=
  if !table || !readOk then none
  else
    match st with
    | some (.snapshot xs) => if 1 ≤ xs.length then some xs else none
    | some .corrupt => none
    | none => none

/-- Embedding of `_save_to_dynamodb(sites)`: overwrite the cache cell when
`TABLE_NAME` is set and the write does not raise; a raised write is caught
and leaves the store unchanged. -/
def save_to_dynamodb (table writeOk : Bool) (st : Option CacheCell)
    (xs : List SiteResult) : Option CacheCell :=
  if table && writeOk then some (.snapshot xs) else st

/-! ## `internet_dashboard.py`: the cascade orchestrator -/

/-- The five cascade sources of `fetchDashboard`, in priority order. -/
inductive Src where
  | http | uptimerobot | statuscake | siteinformant | cache
deriving DecidableEq, Repr

/-- The external world of one `fetchDashboard` call: the resolved target
list, the probe outcomes, provider credentials and responses, and the
DynamoDB availability flags.  `l1err` models the one way level 1 can raise
into the orchestrator's `try` (the thread-pool fan-in). -/
structure Env where
  sites : List String
  probe : String → HttpOutcome
  l1err : Bool
  urKey : Bool
  urResp : Option (List URMonitor)
  scKey : Bool
  scResp : Option (List SCTest)
  si : String → Option SIBody
  table : Bool
  readOk : Bool
  writeOk : Bool

/-- The fixed `sources` list of `fetchDashboard`. -/
def sourceList : List Src :=
  [.http, .uptimerobot, .statuscake, .siteinformant, .cache]

/-- `fn()` for one cascade source: `.error` models the call raising (caught
and logged by the orchestrator), `.ok none` models it returning `None`. -/
def runSource (env : Env) (st : Option CacheCell) : Src → Except Unit (Option (List SiteResult))
  | .http =>
    if env.l1err then .error ()
    else .ok (some (fetch_level1_http env.probe env.sites))
  | .uptimerobot => .ok (fetch_level2_uptimerobot env.urKey env.urResp env.sites)
  | .statuscake => .ok (fetch_level3_statuscake env.scKey env.scResp env.sites)
  | .siteinformant => .ok (fetch_level4_site_informant env.si env.sites)
  | .cache => .ok (fetch_level5_dynamodb env.table env.readOk st)

/-- A source fails the `result and isinstance(result, list) and len(result) >= 1`
check: it raised, returned `None`, or returned an empty list. -/
def sourceFails (env : Env) (st : Option CacheCell) (s : Src) : Bool :=
  match runSource env st s with
  | .error _ => true
  | .ok none => true
  | .ok (some xs) => xs.isEmpty

/-- The provider loop of `fetchDashboard`: first source whose result passes
the non-empty-list check is persisted and returned; raising or falsy sources
are skipped.  Also returns the updated cache cell and the list of sources
invoked. -/
def cascade (env : Env) (st : Option CacheCell) :
    List Src → Option (List SiteResult) × Option CacheCell × List Src
  | [] => (none, st, [])
  | s :: rest =>
    match runSource env st s with
    | .ok (some xs) =>
      if xs.isEmpty then
        let r := cascade env st rest
        (r.1, r.2.1, s :: r.2.2)
      else
        (some xs, save_to_dynamodb env.table env.writeOk st xs, [s])
    | _ =>
      let r := cascade env st rest
      (r.1, r.2.1, s :: r.2.2)

/-- Observable outcome of one `fetchDashboard()` call: the returned list,
the cache cell afterwards, and (ghost, for frame reasoning) the sources
invoked in order. -/
structure DashOutcome where
  result : List SiteResult
  cache : Option CacheCell
  invoked : List Src
deriving DecidableEq, Repr

/-- Embedding of `fetchDashboard()`: run the cascade; if no source yields a
non-empty list, fall back unconditionally to `_fetch_level1_http(sites)`
(which is invoked a second time and not persisted). -/
def fetchDashboard (env : Env) (st : Option CacheCell) : DashOutcome :=
  match cascade env st sourceList with
  | (some xs, c, log) => ⟨xs, c, log⟩
  | (none, c, log) => ⟨fetch_level1_http env.probe env.sites, c, log ++ [Src.http]⟩

/-! ## `our_properties.py`: URL normalization and the properties panel -/

/-- The authority part read by `urlparse(...).netloc` once a `//` has been
seen: the characters before the first `/`, `?` or `#`. -/
def netlocAfter (s : String) : String :=
  ⟨s.data.takeWhile (fun c => !(c == '/') && !(c == '?') && !(c == '#'))⟩

/-- `urlparse(s).netloc` for the strings reaching the parse in
`_normalize_url` (they always carry an explicit `http://` or `https://`
scheme by then; a string without `//` has empty netloc). -/
def netlocOf (s : String) : String :=
  if pyStartsWith s "https://" then netlocAfter (pyDrop s 8)
  else if pyStartsWith s "http://" then netlocAfter (pyDrop s 7)
  else ""

/-- The scheme-coercion step of `_normalize_url`: prefix `https://` unless
the string already starts with `http://` or `https://`. -/
def coerce_scheme (s : String) : String :=
  if !(pyStartsWith s "http://") && !(pyStartsWith s "https://") then "https://" ++ s
  else s

/-- Embedding of `_normalize_url(raw)`: strip, reject empty, lowercase,
coerce the scheme, reject an empty netloc. -/
def normalize_url (raw : String) : Option String :=
  let s := pyStrip raw
  if s = "" then none
  else
    let s := coerce_scheme (pyLower s)
    if netlocOf s = "" then none else some s

/-- Embedding of `_domain_from_url(url)`: `urlparse(url).netloc or url`. -/
def domain_from_url (url : String) : String :=
  let n := netlocOf url
  if n = "" then url else n

/-- One entry of the stored `OUR_PROPERTIES` sites list as returned by
`get_our_properties_sites()`: a normalized URL, a stripped/truncated
description, an optional title (`""` when the stored dict omits it, which
Python's `or` treats identically) and an optional logo key. -/
structure PropEntry where
  url : String
  description : String
  title : String
  logoKey : Option String
deriving DecidableEq, Repr

/-- One item of the list built by `fetch_our_properties()` (`logoUrl`
pre-signing touches no field below and is omitted). -/
structure PropItem where
  url : String
  domain : String
  status : String
  description : String
  title : String
  logoKey : Option String
deriving DecidableEq, Repr

/-- Embedding of `fetch_our_properties()`: project the stored entries to
display items; `status` is the literal `"up"`, no probe is performed. -/
def fetch_our_properties (entries : List PropEntry) : List PropItem :=
  entries.map (fun e =>
    let domain := domain_from_url e.url
    { url := e.url
      domain := domain
      status := "up"
      description := e.description
      title := if e.title ≠ "" then e.title else domain
      logoKey := e.logoKey })

/-! ## `our_properties.py`: `normalize_sites` -/

/-- One element of the raw list handed to `normalize_sites`: either a plain
string or a dict with `url` / `description` / `title` / `logoKey` (absent
keys behave as `""` through Python's `or ""`). -/
inductive RawSite where
  | str (s : String)
  | obj (url description title logoKey : String)
deriving DecidableEq, Repr

/-- One output entry of `normalize_sites` (`title = ""` models the omitted
`title` key, exactly how a further pass reads it back). -/
structure SiteEntry where
  url : String
  description : String
  title : String
  logoKey : Option String
deriving DecidableEq, Repr

/-- The `url` computed for one raw element. -/
def rawUrl : RawSite → Option String
  | .obj u _ _ _ => normalize_url u
  | .str s => normalize_url s

/-- The `description` computed for one raw element:
`(s.get("description") or "").strip()[:255]`. -/
def rawDescN : RawSite → String
  | .obj _ d _ _ => pyTake (pyStrip d) 255
  | .str _ => ""

/-- The `title` computed for one raw element. -/
def rawTitleN : RawSite → String
  | .obj _ _ t _ => pyStrip t
  | .str _ => ""

/-- The `logoKey` computed for one raw element:
`(s.get("logoKey") or "").strip() or None`. -/
def rawLogoN : RawSite → Option String
  | .obj _ _ _ l => if pyStrip l = "" then none else some (pyStrip l)
  | .str _ => none

/-- The loop of `normalize_sites` with its `seen` set. -/
def normalize_sites_go (seen : List String) : List RawSite → List SiteEntry
  | [] => []
  | s :: rest =>
    match rawUrl s with
    | none => normalize_sites_go seen rest
    | some url =>
      if seen.contains url then normalize_sites_go seen rest
      else
        { url := url, description := rawDescN s, title := rawTitleN s,
          logoKey := rawLogoN s } :: normalize_sites_go (url :: seen) rest

/-- Embedding of `normalize_sites(raw_list)`: normalize each element,
dedupe by normalized URL, preserve order. -/
def normalize_sites (raw : List RawSite) : List SiteEntry :=
  normalize_sites_go [] raw

/-- An output entry read back as a raw dict (how `normalize_sites` output is
fed to a second application: an omitted `title`/`logoKey` key and an empty
string are indistinguishable through `or ""`). -/
def siteEntryToRaw (e : SiteEntry) : RawSite :=
  .obj e.url e.description e.title (e.logoKey.getD "")

/-- Spec-side definition (claim C10's words): keep the first occurrence of
each element, in order of first occurrence. -/
def firstOccurDedup : List String → List String
  | [] => []
  | a :: l => a :: firstOccurDedup (l.filter (fun b => b != a))
termination_by l => l.length
decreasing_by
  have := List.length_filter_le (fun b => b != a) l
  simp only [List.length_cons]
  omega

/-! ## Claim C1: the status classifier -/

/-- C1: `_status_from_http` is total and deterministic, returning exactly one
of `up`, `degraded`, `down`: a 2xx code with latency absent or below 3000
yields `up`; a 2xx code with latency ≥ 3000 yields `degraded`; a 3xx/4xx code
yields `degraded`; an absent code or a code ≥ 500 yields `down` regardless of
latency. -/
theorem status_from_http_correct (sc lat : Option Int) :
    (status_from_http sc lat = "up" ∨ status_from_http sc lat = "degraded" ∨
      status_from_http sc lat = "down")
    ∧ (∀ c, sc = some c → 200 ≤ c → c < 300 →
        (lat = none ∨ ∃ t, lat = some t ∧ t < 3000) → status_from_http sc lat = "up")
    ∧ (∀ c t, sc = some c → 200 ≤ c → c < 300 → lat = some t → 3000 ≤ t →
        status_from_http sc lat = "degraded")
    ∧ (∀ c, sc = some c → 300 ≤ c → c < 500 → status_from_http sc lat = "degraded")
    ∧ ((sc = none ∨ ∃ c, sc = some c ∧ 500 ≤ c) → status_from_http sc lat = "down") := by
  refine ⟨?_, ?_, ?_, ?_, ?_⟩
  · rcases sc with _ | c
    · simp [status_from_http]
    · rcases lat with _ | t <;> simp only [status_from_http] <;> split_ifs <;> simp
  · rintro c rfl h2 h3 (rfl | ⟨t, rfl, ht⟩) <;>
      simp only [status_from_http, if_pos (And.intro h2 h3)]
    rw [if_neg (by omega)]
  · rintro c t rfl h2 h3 rfl ht
    simp only [status_from_http, if_pos (And.intro h2 h3)]
    rw [if_pos ht]
  · rintro c rfl h2 h3
    simp only [status_from_http]
    rw [if_neg (by omega), if_pos (And.intro h2 h3)]
  · rintro (rfl | ⟨c, rfl, hc⟩)
    · rfl
    · simp only [status_from_http]
      rw [if_neg (by omega), if_neg (by omega)]

/-- Witness for C1 at concrete inputs. -/
theorem status_from_http_correct_witness :
    status_from_http (some 204) (some 120) = "up"
    ∧ status_from_http (some 204) (some 3500) = "degraded"
    ∧ status_from_http (some 404) (some 10) = "degraded"
    ∧ status_from_http (some 503) (some 10) = "down" :=
  ⟨(status_from_http_correct (some 204) (some 120)).2.1 204 rfl (by decide) (by decide)
      (Or.inr ⟨120, rfl, by decide⟩),
   (status_from_http_correct (some 204) (some 3500)).2.2.1 204 3500 rfl (by decide)
      (by decide) rfl (by decide),
   (status_from_http_correct (some 404) (some 10)).2.2.2.1 404 rfl (by decide) (by decide),
   (status_from_http_correct (some 503) (some 10)).2.2.2.2 (Or.inr ⟨503, rfl, by decide⟩)⟩

/-! ## Claim C7: the direct probe never raises -/

/-- C7: for every target URL whose probe fails (transport / DNS / TLS /
timeout, the `failure` outcome), `_check_url_http` returns `(None, None)`
rather than raising, and the per-target entry built from it is classified
`down` with no latency. -/
theorem check_url_http_failure_down (probe : String → HttpOutcome) (d : String)
    (h : probe d = .failure) :
    check_url_http (probe d) = (none, none)
    ∧ check_one probe d = ⟨d, "down", "http", none⟩ := by
  constructor
  · rw [h]
    rfl
  · unfold check_one
    rw [h]
    rfl

/-- Witness for C7 at a concrete probe. -/
theorem check_url_http_failure_down_witness :
    check_url_http ((fun _ : String => HttpOutcome.failure) "a.example") = (none, none)
    ∧ check_one (fun _ : String => HttpOutcome.failure) "a.example" =
        ⟨"a.example", "down", "http", none⟩ :=
  check_url_http_failure_down (fun _ => HttpOutcome.failure) "a.example" rfl

/-! ## Claim C9: the properties panel reports `up` unconditionally -/

/-- C9: every entry returned by `fetch_our_properties` has status `"up"`:
the function is a pure projection of the stored entries and performs no
probe. -/
theorem fetch_our_properties_status_up (entries : List PropEntry) (item : PropItem)
    (h : item ∈ fetch_our_properties entries) : item.status = "up" := by
  unfold fetch_our_properties at h
  rw [List.mem_map] at h
  obtain ⟨e, _, rfl⟩ := h
  rfl

/-- Witness for C9 on a concrete stored list. -/
theorem fetch_our_properties_status_up_witness :
    (⟨"https://a.example", "a.example", "up", "", "a.example", none⟩ : PropItem) ∈
      fetch_our_properties [⟨"https://a.example", "", "", none⟩]
    ∧ (⟨"https://a.example", "a.example", "up", "", "a.example", none⟩ : PropItem).status
        = "up" :=
  ⟨by decide, fetch_our_properties_status_up [⟨"https://a.example", "", "", none⟩] _
    (by decide)⟩

/-! ## Claim C5: the absent contract of the secondary providers -/

/-- A list of per-domain constructors has the input domains, in order. -/
theorem map_domain_of_mk (sites : List String) (f : String → SiteResult)
    (hf : ∀ d, (f d).domain = d) : (sites.map f).map (·.domain) = sites := by
  rw [List.map_map]
  have : (fun x => SiteResult.domain (f x)) = fun x => x := funext hf
  rw [Function.comp_def, this, List.map_id']

/-- C5 counterexample: with a credential configured and the batched call
succeeding with zero monitors (zero usable entries), level 2 returns a full
per-target all-`down` list, not absent. -/
theorem secondary_absent_counterexample :
    fetch_level2_uptimerobot true (some []) ["a.example"] =
      some [⟨"a.example", "down", "uptimerobot", none⟩]
    ∧ fetch_level2_uptimerobot true (some []) ["a.example"] ≠ none := by
  exact ⟨by decide, by decide⟩

/-- An UptimeRobot call that succeeds classifies a target unmatched by
every monitor as `down`. -/
theorem fetch_level2_unmatched_down (ms : List URMonitor) (sites : List String)
    (d : String) (hd : d ∈ sites)
    (hun : ∀ m ∈ ms, ¬ provider_url_key m.url = d) :
    SiteResult.mk d "down" "uptimerobot" none ∈
      (fetch_level2_uptimerobot true (some ms) sites).getD [] := by
  have hnone : ms.reverse.find? (fun m => provider_url_key m.url == d) = none := by
    rw [List.find?_eq_none]
    intro m hm hbeq
    exact hun m (List.mem_reverse.mp hm) (eq_of_beq hbeq)
  refine List.mem_map.mpr ⟨d, hd, ?_⟩
  show (let m := ms.reverse.find? (fun m => provider_url_key m.url == d)
        let status := match m with
          | some m => ur_status (m.status.getD 9)
          | none => "down"
        SiteResult.mk d status "uptimerobot" none) =
      SiteResult.mk d "down" "uptimerobot" none
  rw [hnone]

/-- A StatusCake call that succeeds classifies a target unmatched by every
test as `down`. -/
theorem fetch_level3_unmatched_down (ts : List SCTest) (sites : List String)
    (d : String) (hd : d ∈ sites)
    (hun : ∀ t ∈ ts, ¬ provider_url_key t.website_url = d) :
    SiteResult.mk d "down" "statuscake" none ∈
      (fetch_level3_statuscake true (some ts) sites).getD [] := by
  have hnone : ts.reverse.find? (fun t => provider_url_key t.website_url == d)
      = none := by
    rw [List.find?_eq_none]
    intro t ht hbeq
    exact hun t (List.mem_reverse.mp ht) (eq_of_beq hbeq)
  refine List.mem_map.mpr ⟨d, hd, ?_⟩
  show (let t := ts.reverse.find? (fun t => provider_url_key t.website_url == d)
        let status := match t with
          | some t =>
            let uptime := t.uptime.getD 0
            if 99 ≤ uptime then "up" else if 95 ≤ uptime then "degraded" else "down"
          | none => "down"
        SiteResult.mk d status "statuscake" none) =
      SiteResult.mk d "down" "statuscake" none
  rw [hnone]

/-- C5 amended: levels 2 and 3 return absent exactly when unconfigured or
when the remote call fails; whenever the call succeeds they return one entry
per target in target-list order, and a target unmatched by every remote
record defaults to `down` — even with zero usable entries.  Level 4
additionally returns absent when every per-target entry is `down`; otherwise
it returns one entry per target in order with some non-`down` entry. -/
theorem secondary_absent_amended (key scKey : Bool) (resp : Option (List URMonitor))
    (scResp : Option (List SCTest)) (sites : List String)
    (si : String → Option SIBody) :
    (fetch_level2_uptimerobot key resp sites = none ↔ (key = false ∨ resp = none))
    ∧ (∀ xs, fetch_level2_uptimerobot key resp sites = some xs →
        xs.map (·.domain) = sites)
    ∧ (∀ ms d, key = true → resp = some ms → d ∈ sites →
        (∀ m ∈ ms, ¬ provider_url_key m.url = d) →
        SiteResult.mk d "down" "uptimerobot" none ∈
          (fetch_level2_uptimerobot key resp sites).getD [])
    ∧ (fetch_level3_statuscake scKey scResp sites = none ↔
        (scKey = false ∨ scResp = none))
    ∧ (∀ xs, fetch_level3_statuscake scKey scResp sites = some xs →
        xs.map (·.domain) = sites)
    ∧ (∀ ts d, scKey = true → scResp = some ts → d ∈ sites →
        (∀ t ∈ ts, ¬ provider_url_key t.website_url = d) →
        SiteResult.mk d "down" "statuscake" none ∈
          (fetch_level3_statuscake scKey scResp sites).getD [])
    ∧ (fetch_level4_site_informant si sites = none ↔
        ∀ r ∈ sites.map (si_entry si), r.status = "down")
    ∧ (∀ xs, fetch_level4_site_informant si sites = some xs →
        xs.map (·.domain) = sites ∧ ∃ r ∈ xs, r.status ≠ "down") := by
  refine ⟨?_, ?_, ?_, ?_, ?_, ?_, ?_, ?_⟩
  · cases key with
    | false => simp [fetch_level2_uptimerobot]
    | true =>
      cases resp with
      | none => simp [fetch_level2_uptimerobot]
      | some ms => simp [fetch_level2_uptimerobot]
  · intro xs hxs
    cases key with
    | false => simp [fetch_level2_uptimerobot] at hxs
    | true =>
      cases resp with
      | none => simp [fetch_level2_uptimerobot] at hxs
      | some ms =>
        simp only [fetch_level2_uptimerobot, Bool.not_true, Bool.false_eq_true,
          if_false, Option.some.injEq] at hxs
        subst hxs
        exact map_domain_of_mk sites _ (fun d => rfl)
  · intro ms d hk hr hd hun
    subst hk
    subst hr
    exact fetch_level2_unmatched_down ms sites d hd hun
  · cases scKey with
    | false => simp [fetch_level3_statuscake]
    | true =>
      cases scResp with
      | none => simp [fetch_level3_statuscake]
      | some ts => simp [fetch_level3_statuscake]
  · intro xs hxs
    cases scKey with
    | false => simp [fetch_level3_statuscake] at hxs
    | true =>
      cases scResp with
      | none => simp [fetch_level3_statuscake] at hxs
      | some ts =>
        simp only [fetch_level3_statuscake, Bool.not_true, Bool.false_eq_true,
          if_false, Option.some.injEq] at hxs
        subst hxs
        exact map_domain_of_mk sites _ (fun d => rfl)
  · intro ts d hk hr hd hun
    subst hk
    subst hr
    exact fetch_level3_unmatched_down ts sites d hd hun
  · rw [show fetch_level4_site_informant si sites =
        (if (sites.map (si_entry si)).any (fun r => r.status != "down") then
          some (sites.map (si_entry si)) else none) from rfl]
    split_ifs with h
    · simp only [false_iff]
      intro hall
      rw [List.any_eq_true] at h
      obtain ⟨r, hr, hne⟩ := h
      have := hall r hr
      simp [this] at hne
    · simp only [true_iff]
      intro r hr
      rw [Bool.not_eq_true, List.any_eq_false] at h
      have := h r hr
      simpa using this
  · intro xs hxs
    rw [show fetch_level4_site_informant si sites =
        (if (sites.map (si_entry si)).any (fun r => r.status != "down") then
          some (sites.map (si_entry si)) else none) from rfl] at hxs
    split_ifs at hxs with h
    · obtain rfl : sites.map (si_entry si) = xs := by
        simpa using hxs
      refine ⟨map_domain_of_mk sites _ (fun d => ?_), ?_⟩
      · unfold si_entry
        cases si d <;> rfl
      · rw [List.any_eq_true] at h
        obtain ⟨r, hr, hne⟩ := h
        exact ⟨r, hr, by simpa using hne⟩

/-- Witness for C5 (amended): concrete level-2/3/4 providers over two
targets, of which `b.example` is unmatched by both remote data sets and
defaults to `down`. -/
theorem secondary_absent_amended_witness :
    ([⟨"a.example", "up", "uptimerobot", none⟩,
      ⟨"b.example", "down", "uptimerobot", none⟩] : List SiteResult).map (·.domain)
      = ["a.example", "b.example"]
    ∧ SiteResult.mk "b.example" "down" "uptimerobot" none ∈
        (fetch_level2_uptimerobot true (some [⟨"https://a.example", some 2⟩])
          ["a.example", "b.example"]).getD []
    ∧ ([⟨"a.example", "up", "statuscake", none⟩,
        ⟨"b.example", "down", "statuscake", none⟩] : List SiteResult).map (·.domain)
        = ["a.example", "b.example"]
    ∧ SiteResult.mk "b.example" "down" "statuscake" none ∈
        (fetch_level3_statuscake true (some [⟨"https://a.example/", some 100⟩])
          ["a.example", "b.example"]).getD []
    ∧ ([⟨"a.example", "up", "siteinformant", some 30⟩,
        ⟨"b.example", "up", "siteinformant", some 30⟩] : List SiteResult).map (·.domain)
        = ["a.example", "b.example"]
    ∧ (∃ r ∈ ([⟨"a.example", "up", "siteinformant", some 30⟩,
        ⟨"b.example", "up", "siteinformant", some 30⟩] : List SiteResult),
        r.status ≠ "down") :=
  ⟨(secondary_absent_amended true true (some [⟨"https://a.example", some 2⟩])
      (some [⟨"https://a.example/", some 100⟩]) ["a.example", "b.example"]
      (fun _ => some ⟨true, 100, some 30⟩)).2.1 _ (by decide),
   (secondary_absent_amended true true (some [⟨"https://a.example", some 2⟩])
      (some [⟨"https://a.example/", some 100⟩]) ["a.example", "b.example"]
      (fun _ => some ⟨true, 100, some 30⟩)).2.2.1 _ "b.example" rfl rfl
      (by decide) (by decide),
   (secondary_absent_amended true true (some [⟨"https://a.example", some 2⟩])
      (some [⟨"https://a.example/", some 100⟩]) ["a.example", "b.example"]
      (fun _ => some ⟨true, 100, some 30⟩)).2.2.2.2.1 _ (by decide),
   (secondary_absent_amended true true (some [⟨"https://a.example", some 2⟩])
      (some [⟨"https://a.example/", some 100⟩]) ["a.example", "b.example"]
      (fun _ => some ⟨true, 100, some 30⟩)).2.2.2.2.2.1 _ "b.example" rfl rfl
      (by decide) (by decide),
   ((secondary_absent_amended true true (some [⟨"https://a.example", some 2⟩])
      (some [⟨"https://a.example/", some 100⟩]) ["a.example", "b.example"]
      (fun _ => some ⟨true, 100, some 30⟩)).2.2.2.2.2.2.2 _ (by decide)).1,
   ((secondary_absent_amended true true (some [⟨"https://a.example", some 2⟩])
      (some [⟨"https://a.example/", some 100⟩]) ["a.example", "b.example"]
      (fun _ => some ⟨true, 100, some 30⟩)).2.2.2.2.2.2.2 _ (by decide)).2⟩

/-! ## Claim C8: `_normalize_url` -/

/-- `pyStartsWith` holds of any string extended on the right. -/
theorem pyStartsWith_append_self (p s : String) : pyStartsWith (p ++ s) p = true := by
  unfold pyStartsWith
  rw [String.data_append, List.isPrefixOf_iff_prefix]
  exact List.prefix_append p.data s.data

/-- Unfolded form of `normalize_url` with its `let` bindings expanded. -/
theorem normalize_url_eq (raw : String) :
    normalize_url raw =
      if pyStrip raw = "" then none
      else if netlocOf (coerce_scheme (pyLower (pyStrip raw))) = "" then none
      else some (coerce_scheme (pyLower (pyStrip raw))) := rfl

/-- C8 counterexample: the bare domain `example.com/` normalizes to
`https://example.com/` — the trailing slash is preserved, not stripped. -/
theorem normalize_url_counterexample :
    normalize_url "example.com/" = some "https://example.com/"
    ∧ "https://example.com/".data.getLast? = some '/' := by
  exact ⟨by decide, by decide⟩

/-- C8 amended: for every non-blank input, `_normalize_url` strips
surrounding whitespace, lowercases, and coerces a bare domain (no scheme)
to an `https://` URL, preserving any trailing slash; blank input or input
yielding no host normalizes to `None`; every successful output carries an
explicit scheme and a non-empty host. -/
theorem normalize_url_amended (raw : String) :
    (pyStrip raw = "" → normalize_url raw = none)
    ∧ (pyStrip raw ≠ "" →
        netlocOf (coerce_scheme (pyLower (pyStrip raw))) = "" →
        normalize_url raw = none)
    ∧ (∀ out, normalize_url raw = some out →
        (pyStartsWith out "http://" = true ∨ pyStartsWith out "https://" = true)
        ∧ netlocOf out ≠ "")
    ∧ (pyStartsWith (pyLower (pyStrip raw)) "http://" = false →
       pyStartsWith (pyLower (pyStrip raw)) "https://" = false →
       ∀ out, normalize_url raw = some out →
         out = "https://" ++ pyLower (pyStrip raw)) := by
  refine ⟨?_, ?_, ?_, ?_⟩
  · intro h
    unfold normalize_url
    rw [if_pos h]
  · intro h1 h2
    unfold normalize_url
    rw [if_neg h1, if_pos h2]
  · intro out hout
    rw [normalize_url_eq] at hout
    split_ifs at hout with h1 h2
    obtain rfl : coerce_scheme (pyLower (pyStrip raw)) = out := by
      simpa using hout
    refine ⟨?_, h2⟩
    unfold coerce_scheme
    split_ifs with h3
    · exact Or.inr (pyStartsWith_append_self "https://" _)
    · cases ha : pyStartsWith (pyLower (pyStrip raw)) "http://" with
      | true => exact Or.inl rfl
      | false =>
        cases hb : pyStartsWith (pyLower (pyStrip raw)) "https://" with
        | true => exact Or.inr rfl
        | false => simp [ha, hb] at h3
  · intro h1 h2 out hout
    rw [normalize_url_eq] at hout
    split_ifs at hout with h3 h4
    obtain rfl : coerce_scheme (pyLower (pyStrip raw)) = out := by
      simpa using hout
    unfold coerce_scheme
    rw [h1, h2]
    simp

/-- Witness for C8 (amended) at concrete inputs. -/
theorem normalize_url_amended_witness :
    normalize_url "   " = none
    ∧ normalize_url "https:///x" = none
    ∧ ((pyStartsWith "https://sub.example" "http://" = true ∨
        pyStartsWith "https://sub.example" "https://" = true)
       ∧ netlocOf "https://sub.example" ≠ "")
    ∧ "https://sub.example" = "https://" ++ pyLower (pyStrip " Sub.Example ") :=
  ⟨(normalize_url_amended "   ").1 (by decide),
   (normalize_url_amended "https:///x").2.1 (by decide) (by decide),
   (normalize_url_amended "sub.example").2.2.1 "https://sub.example" (by decide),
   (normalize_url_amended " Sub.Example ").2.2.2 (by decide) (by decide)
     "https://sub.example" (by decide)⟩

/-! ## Cascade lemmas -/

/-- A failing source is skipped and logged; the loop continues. -/
theorem cascade_cons_fail (env : Env) (st : Option CacheCell) (s : Src)
    (rest : List Src) (h : sourceFails env st s = true) :
    cascade env st (s :: rest) =
      ((cascade env st rest).1, (cascade env st rest).2.1,
        s :: (cascade env st rest).2.2) := by
  unfold sourceFails at h
  rcases hr : runSource env st s with e | o
  · simp [cascade, hr]
  · rcases o with _ | xs
    · simp [cascade, hr]
    · rw [hr] at h
      replace h : xs.isEmpty = true := h
      simp [cascade, hr, h]

/-- A source passing the non-empty-list check short-circuits: its result is
persisted and returned, and nothing later runs. -/
theorem cascade_cons_hit (env : Env) (st : Option CacheCell) (s : Src)
    (rest : List Src) (xs : List SiteResult)
    (h : runSource env st s = .ok (some xs)) (hne : xs ≠ []) :
    cascade env st (s :: rest) =
      (some xs, save_to_dynamodb env.table env.writeOk st xs, [s]) := by
  unfold cascade
  rw [h]
  simp only [List.isEmpty_eq_true, hne, if_false]

/-- A block of failing sources contributes only log entries. -/
theorem cascade_append_fails (env : Env) (st : Option CacheCell)
    (pre rest : List Src) (h : ∀ s ∈ pre, sourceFails env st s = true) :
    cascade env st (pre ++ rest) =
      ((cascade env st rest).1, (cascade env st rest).2.1,
        pre ++ (cascade env st rest).2.2) := by
  induction pre with
  | nil => simp
  | cons a t ih =>
    rw [List.cons_append, cascade_cons_fail env st a _ (h a (by simp)),
      ih (fun s hs => h s (by simp [hs]))]
    simp

/-- Any non-empty result produced by the loop came from one of its sources. -/
theorem cascade_result_from_source (env : Env) (st : Option CacheCell) :
    ∀ (names : List Src) (r : List SiteResult),
      (cascade env st names).1 = some r →
      ∃ s ∈ names, runSource env st s = .ok (some r) := by
  intro names
  induction names with
  | nil => intro r hr; simp [cascade] at hr
  | cons a t ih =>
    intro r hr
    rcases ha : runSource env st a with e | o
    · rw [cascade_cons_fail env st a t (by unfold sourceFails; rw [ha])] at hr
      obtain ⟨s, hs, h⟩ := ih r hr
      exact ⟨s, by simp [hs], h⟩
    · rcases o with _ | xs
      · rw [cascade_cons_fail env st a t (by unfold sourceFails; rw [ha])] at hr
        obtain ⟨s, hs, h⟩ := ih r hr
        exact ⟨s, by simp [hs], h⟩
      · by_cases hxs : xs.isEmpty
        · rw [cascade_cons_fail env st a t
            (by unfold sourceFails; rw [ha]; exact hxs)] at hr
          obtain ⟨s, hs, h⟩ := ih r hr
          exact ⟨s, by simp [hs], h⟩
        · rw [cascade_cons_hit env st a t xs ha
            (by simpa [List.isEmpty_eq_true] using hxs)] at hr
          obtain rfl : xs = r := by simpa using hr
          exact ⟨a, by simp, ha⟩

/-- Per-target shape of level 1. -/
theorem fetch_level1_http_domains (probe : String → HttpOutcome)
    (sites : List String) :
    (fetch_level1_http probe sites).map (·.domain) = sites :=
  map_domain_of_mk sites _ (fun _ => rfl)

/-- Per-target shape of level 3. -/
theorem fetch_level3_statuscake_domains (key : Bool) (resp : Option (List SCTest))
    (sites : List String) (xs : List SiteResult)
    (h : fetch_level3_statuscake key resp sites = some xs) :
    xs.map (·.domain) = sites := by
  cases key with
  | false => simp [fetch_level3_statuscake] at h
  | true =>
    cases resp with
    | none => simp [fetch_level3_statuscake] at h
    | some ts =>
      simp only [fetch_level3_statuscake, Bool.not_true, Bool.false_eq_true, if_false,
        Option.some.injEq] at h
      subst h
      exact map_domain_of_mk sites _ (fun d => rfl)

/-- A successful cache read inverts to a stored non-empty snapshot. -/
theorem fetch_level5_inv (table readOk : Bool) (st : Option CacheCell)
    (xs : List SiteResult) (h : fetch_level5_dynamodb table readOk st = some xs) :
    table = true ∧ readOk = true ∧ st = some (.snapshot xs) ∧ xs ≠ [] := by
  unfold fetch_level5_dynamodb at h
  split_ifs at h with h1
  match st with
  | none => simp at h
  | some .corrupt => simp at h
  | some (.snapshot ys) =>
    replace h : (if 1 ≤ ys.length then some ys else none) = some xs := h
    split_ifs at h with h2
    obtain rfl : ys = xs := by simpa using h
    rw [Bool.not_eq_true] at h1
    rw [Bool.or_eq_false_iff, Bool.not_eq_false', Bool.not_eq_false'] at h1
    exact ⟨h1.1, h1.2, rfl, by intro hnil; subst hnil; simp at h2⟩

/-- Per-target shape of level 2. -/
theorem fetch_level2_uptimerobot_domains (key : Bool) (resp : Option (List URMonitor))
    (sites : List String) (xs : List SiteResult)
    (h : fetch_level2_uptimerobot key resp sites = some xs) :
    xs.map (·.domain) = sites := by
  cases key with
  | false => simp [fetch_level2_uptimerobot] at h
  | true =>
    cases resp with
    | none => simp [fetch_level2_uptimerobot] at h
    | some ms =>
      simp only [fetch_level2_uptimerobot, Bool.not_true, Bool.false_eq_true, if_false,
        Option.some.injEq] at h
      subst h
      exact map_domain_of_mk sites _ (fun d => rfl)

/-- Per-target shape of level 4. -/
theorem fetch_level4_site_informant_domains (si : String → Option SIBody)
    (sites : List String) (xs : List SiteResult)
    (h : fetch_level4_site_informant si sites = some xs) :
    xs.map (·.domain) = sites := by
  rw [show fetch_level4_site_informant si sites =
      (if (sites.map (si_entry si)).any (fun r => r.status != "down") then
        some (sites.map (si_entry si)) else none) from rfl] at h
  split_ifs at h with hv
  obtain rfl : sites.map (si_entry si) = xs := by simpa using h
  refine map_domain_of_mk sites _ (fun d => ?_)
  unfold si_entry
  cases si d <;> rfl

/-- A source that wins the loop determines the whole call: earlier sources
all failed, its result is persisted and returned, later sources are not in
the invocation log. -/
theorem fetchDashboard_hit (env : Env) (st : Option CacheCell)
    (pre post : List Src) (s : Src) (xs : List SiteResult)
    (hsplit : sourceList = pre ++ s :: post)
    (hpre : ∀ p ∈ pre, sourceFails env st p = true)
    (hs : runSource env st s = .ok (some xs)) (hne : xs ≠ []) :
    fetchDashboard env st =
      ⟨xs, save_to_dynamodb env.table env.writeOk st xs, pre ++ [s]⟩ := by
  unfold fetchDashboard
  rw [hsplit, cascade_append_fails env st pre _ hpre,
    cascade_cons_hit env st s post xs hs hne]

/-! ## Claim C2: shape of the top-level result -/

/-- C2 counterexample environment: one resolved target, a direct probe that
raises at fan-in, no secondary provider usable, and a stale two-entry cached
snapshot. -/
def envCE2 : Env :=
  { sites := ["a.example"]
    probe := fun _ => .failure
    l1err := true
    urKey := false
    urResp := none
    scKey := false
    scResp := none
    si := fun _ => none
    table := true
    readOk := true
    writeOk := true }

/-- The stale cached snapshot for the C2 counterexample. -/
def stCE2 : Option CacheCell :=
  some (.snapshot [⟨"x.example", "up", "http", some 5⟩,
    ⟨"y.example", "down", "http", none⟩])

/-- C2 counterexample: on the cache-fallback path the call returns the
cached snapshot verbatim, here two entries for a one-target resolved list —
not one entry per resolved target. -/
theorem getStatus_shape_counterexample :
    (fetchDashboard envCE2 stCE2).result.length = 2 ∧ envCE2.sites.length = 1 :=
  ⟨by decide, by decide⟩

/-- C2 amended: `fetchDashboard` is total (it never raises in the model, in
which the probe fan-in deadline of the final fallback is not modelled), and
on every cascade path other than a cache hit it returns exactly one entry
per resolved target, in resolved order (so an empty target list with no
usable cached snapshot yields `[]`); a cache hit instead returns the cached
snapshot verbatim, which need not match the current target list. -/
theorem getStatus_shape (env : Env) (st : Option CacheCell) :
    (fetchDashboard env st).result.map (·.domain) = env.sites
    ∨ ∃ xs, fetch_level5_dynamodb env.table env.readOk st = some xs ∧
        (fetchDashboard env st).result = xs := by
  rcases hc : cascade env st sourceList with ⟨o, c2, log⟩
  rcases o with _ | xs
  · left
    have hfd : fetchDashboard env st =
        ⟨fetch_level1_http env.probe env.sites, c2, log ++ [Src.http]⟩ := by
      unfold fetchDashboard
      rw [hc]
    rw [hfd]
    exact fetch_level1_http_domains env.probe env.sites
  · have hres : (fetchDashboard env st).result = xs := by
      unfold fetchDashboard
      rw [hc]
    obtain ⟨s, hmem, hrun⟩ :=
      cascade_result_from_source env st sourceList xs (by rw [hc])
    cases s with
    | http =>
      left
      unfold runSource at hrun
      split_ifs at hrun with hl
      obtain rfl : fetch_level1_http env.probe env.sites = xs := by
        simpa using hrun
      rw [hres]
      exact fetch_level1_http_domains env.probe env.sites
    | uptimerobot =>
      left
      replace hrun : fetch_level2_uptimerobot env.urKey env.urResp env.sites = some xs := by
        simpa [runSource] using hrun
      rw [hres]
      exact fetch_level2_uptimerobot_domains _ _ _ _ hrun
    | statuscake =>
      left
      replace hrun : fetch_level3_statuscake env.scKey env.scResp env.sites = some xs := by
        simpa [runSource] using hrun
      rw [hres]
      exact fetch_level3_statuscake_domains _ _ _ _ hrun
    | siteinformant =>
      left
      replace hrun : fetch_level4_site_informant env.si env.sites = some xs := by
        simpa [runSource] using hrun
      rw [hres]
      exact fetch_level4_site_informant_domains _ _ _ hrun
    | cache =>
      right
      replace hrun : fetch_level5_dynamodb env.table env.readOk st = some xs := by
        simpa [runSource] using hrun
      exact ⟨xs, hrun, hres⟩

/-! ## Claim C4: short-circuit and continuation of the cascade -/

/-- C4: for every cascade position (any split of the source list): if every
earlier source raised or returned absent/empty, the cascade continued past
them; and the first source returning a non-empty well-formed list has that
list persisted via the cache save and returned immediately, with no later
source invoked (the invocation log is exactly the failed prefix plus the
winner). -/
theorem orchestrator_short_circuit (env : Env) (st : Option CacheCell)
    (pre post : List Src) (s : Src) (xs : List SiteResult)
    (hsplit : sourceList = pre ++ s :: post)
    (hpre : ∀ p ∈ pre, sourceFails env st p = true)
    (hs : runSource env st s = .ok (some xs)) (hne : xs ≠ []) :
    fetchDashboard env st =
      ⟨xs, save_to_dynamodb env.table env.writeOk st xs, pre ++ [s]⟩ :=
  fetchDashboard_hit env st pre post s xs hsplit hpre hs hne

/-- C4 witness environment: level 1 raises, UptimeRobot is configured and
answers for the single target. -/
def envC4 : Env :=
  { sites := ["a.example"]
    probe := fun _ => .failure
    l1err := true
    urKey := true
    urResp := some [⟨"https://a.example", some 2⟩]
    scKey := false
    scResp := none
    si := fun _ => none
    table := true
    readOk := true
    writeOk := true }

/-- Witness for C4: level 1 fails, level 2 wins, is persisted, and levels
3-5 are never invoked. -/
theorem orchestrator_short_circuit_witness :
    fetchDashboard envC4 none =
      ⟨[⟨"a.example", "up", "uptimerobot", none⟩],
        some (.snapshot [⟨"a.example", "up", "uptimerobot", none⟩]),
        [Src.http, Src.uptimerobot]⟩ :=
  orchestrator_short_circuit envC4 none [Src.http]
    [Src.statuscake, Src.siteinformant, Src.cache] Src.uptimerobot
    [⟨"a.example", "up", "uptimerobot", none⟩] rfl (by decide) (by rfl) (by decide)

/-! ## Claim C3: cache persistence and the cache-fallback path -/

/-- C3 counterexample: saving the empty aggregate list and loading it back
yields absent, not the empty list, because the reader requires
`len(sites) >= 1` — so the save/load round-trip fails for `[]`. -/
theorem cache_roundtrip_counterexample :
    fetch_level5_dynamodb true true (save_to_dynamodb true true none []) = none
    ∧ fetch_level5_dynamodb true true (save_to_dynamodb true true none []) ≠
        some ([] : List SiteResult) :=
  ⟨by decide, by decide⟩

/-- C3 amended: with the cache table configured and the storage read/write
succeeding, every NON-EMPTY aggregate result list survives the
save-then-load round-trip unchanged; and when the direct probe raises, every
secondary provider returns absent, and the store holds a non-empty
snapshot, `fetchDashboard` returns exactly that snapshot. -/
theorem cache_roundtrip_and_fallback (env : Env) (st st0 : Option CacheCell)
    (xs : List SiteResult) :
    (xs ≠ [] →
      fetch_level5_dynamodb true true (save_to_dynamodb true true st0 xs) = some xs)
    ∧ (env.l1err = true →
       fetch_level2_uptimerobot env.urKey env.urResp env.sites = none →
       fetch_level3_statuscake env.scKey env.scResp env.sites = none →
       fetch_level4_site_informant env.si env.sites = none →
       env.table = true → env.readOk = true →
       st = some (.snapshot xs) → xs ≠ [] →
       (fetchDashboard env st).result = xs) := by
  constructor
  · intro hne
    unfold save_to_dynamodb fetch_level5_dynamodb
    simp [Nat.one_le_iff_ne_zero, List.length_eq_zero, hne]
  · intro hl h2 h3 h4 ht hro hst hne
    have hpre : ∀ p ∈ [Src.http, Src.uptimerobot, Src.statuscake, Src.siteinformant],
        sourceFails env st p = true := by
      intro p hp
      fin_cases hp <;> unfold sourceFails runSource <;> simp [hl, h2, h3, h4]
    have hrun : runSource env st .cache = .ok (some xs) := by
      unfold runSource fetch_level5_dynamodb
      rw [ht, hro, hst]
      simp [Nat.one_le_iff_ne_zero, List.length_eq_zero, hne]
    rw [fetchDashboard_hit env st
      [Src.http, Src.uptimerobot, Src.statuscake, Src.siteinformant] [] Src.cache xs rfl
      hpre hrun hne]

/-- C3 witness environment: probe raising, no providers usable, cache
configured. -/
def envC3 : Env :=
  { sites := ["a.example"]
    probe := fun _ => .failure
    l1err := true
    urKey := false
    urResp := none
    scKey := false
    scResp := none
    si := fun _ => none
    table := true
    readOk := true
    writeOk := true }

/-- Witness for C3 (amended): a concrete non-empty snapshot round-trips and
is returned by the cache-fallback path. -/
theorem cache_roundtrip_and_fallback_witness :
    fetch_level5_dynamodb true true
        (save_to_dynamodb true true none [⟨"a.example", "up", "http", some 10⟩]) =
      some [⟨"a.example", "up", "http", some 10⟩]
    ∧ (fetchDashboard envC3
        (some (.snapshot [⟨"a.example", "up", "http", some 10⟩]))).result =
      [⟨"a.example", "up", "http", some 10⟩] :=
  ⟨(cache_roundtrip_and_fallback envC3 none none
      [⟨"a.example", "up", "http", some 10⟩]).1 (by decide),
   (cache_roundtrip_and_fallback envC3
      (some (.snapshot [⟨"a.example", "up", "http", some 10⟩])) none
      [⟨"a.example", "up", "http", some 10⟩]).2 rfl (by rfl) (by rfl) (by rfl)
      rfl rfl rfl (by decide)⟩

/-! ## Claim C6: behaviour on an empty resolved target list -/

/-- With no targets, all four live sources fail the non-empty check: the
direct probe yields `[]` (or raises), levels 2 and 3 yield `[]` or absent,
and level 4 yields absent. -/
theorem sources_fail_of_empty (env : Env) (st : Option CacheCell)
    (h : env.sites = []) :
    ∀ p ∈ [Src.http, Src.uptimerobot, Src.statuscake, Src.siteinformant],
      sourceFails env st p = true := by
  intro p hp
  fin_cases hp
  · unfold sourceFails runSource
    cases hl : env.l1err
    · simp [fetch_level1_http, h]
    · simp
  · unfold sourceFails runSource
    cases hk : env.urKey
    · simp [fetch_level2_uptimerobot]
    · cases hr : env.urResp
      · simp [fetch_level2_uptimerobot]
      · simp [fetch_level2_uptimerobot, h]
  · unfold sourceFails runSource
    cases hk : env.scKey
    · simp [fetch_level3_statuscake]
    · cases hr : env.scResp
      · simp [fetch_level3_statuscake]
      · simp [fetch_level3_statuscake, h]
  · unfold sourceFails runSource
    simp [fetch_level4_site_informant, h]

/-- C6 counterexample environment: empty resolved target list, cache
configured and holding a non-empty stale snapshot. -/
def envCE6 : Env :=
  { sites := []
    probe := fun _ => .failure
    l1err := false
    urKey := true
    urResp := some []
    scKey := false
    scResp := none
    si := fun _ => none
    table := true
    readOk := true
    writeOk := true }

/-- C6 counterexample: with an empty resolved target list the call does NOT
return `[]` untouched: every provider is still invoked, the cache is read,
and a stale non-empty snapshot is returned. -/
theorem empty_targets_counterexample :
    (fetchDashboard envCE6 (some (.snapshot [⟨"x.example", "up", "http", none⟩]))).result
      = [⟨"x.example", "up", "http", none⟩]
    ∧ (fetchDashboard envCE6
        (some (.snapshot [⟨"x.example", "up", "http", none⟩]))).result ≠ []
    ∧ (fetchDashboard envCE6
        (some (.snapshot [⟨"x.example", "up", "http", none⟩]))).invoked ≠ [] :=
  ⟨by decide, by decide, by decide⟩

/-- C6 amended: with an empty resolved target list, `fetchDashboard` still
runs the whole cascade (in particular the cache source is invoked, so the
cache IS read): every live provider fails the non-empty check, the call
returns the cached snapshot if the store holds a usable one and `[]`
otherwise, and the cache cell afterwards is unchanged (a hit merely
re-saves the identical snapshot). -/
theorem empty_targets_amended (env : Env) (st : Option CacheCell)
    (h : env.sites = []) :
    (fetchDashboard env st).result =
      (fetch_level5_dynamodb env.table env.readOk st).getD []
    ∧ (fetchDashboard env st).cache = st
    ∧ Src.cache ∈ (fetchDashboard env st).invoked := by
  have hpre := sources_fail_of_empty env st h
  have hsp : sourceList =
      [Src.http, Src.uptimerobot, Src.statuscake, Src.siteinformant] ++ [Src.cache] := rfl
  rcases h5 : fetch_level5_dynamodb env.table env.readOk st with _ | xs
  · have hcas : cascade env st sourceList =
        (none, st, [Src.http, Src.uptimerobot, Src.statuscake, Src.siteinformant,
          Src.cache]) := by
      rw [hsp, cascade_append_fails env st _ _ hpre,
        cascade_cons_fail env st Src.cache []
          (by unfold sourceFails runSource; rw [h5])]
      simp [cascade]
    have hfd : fetchDashboard env st =
        ⟨fetch_level1_http env.probe env.sites, st,
          [Src.http, Src.uptimerobot, Src.statuscake, Src.siteinformant, Src.cache]
            ++ [Src.http]⟩ := by
      unfold fetchDashboard
      rw [hcas]
    rw [hfd]
    refine ⟨?_, rfl, by simp⟩
    rw [h]
    rfl
  · obtain ⟨ht, hro, hst, hne⟩ := fetch_level5_inv _ _ _ _ h5
    have hrun : runSource env st .cache = .ok (some xs) := by
      unfold runSource
      rw [h5]
    have hfd := fetchDashboard_hit env st
      [Src.http, Src.uptimerobot, Src.statuscake, Src.siteinformant] [] Src.cache xs rfl
      hpre hrun hne
    rw [hfd]
    refine ⟨rfl, ?_, by simp⟩
    rw [hst]
    unfold save_to_dynamodb
    rw [ht]
    cases env.writeOk <;> simp

/-- C6 witness environment: empty target list, no usable cache. -/
def envW6 : Env :=
  { sites := []
    probe := fun _ => .failure
    l1err := false
    urKey := false
    urResp := none
    scKey := false
    scResp := none
    si := fun _ => none
    table := false
    readOk := true
    writeOk := true }

/-- Witness for C6 (amended) at a concrete environment with no cache. -/
theorem empty_targets_amended_witness :
    (fetchDashboard envW6 none).result =
      (fetch_level5_dynamodb envW6.table envW6.readOk none).getD []
    ∧ (fetchDashboard envW6 none).cache = none
    ∧ Src.cache ∈ (fetchDashboard envW6 none).invoked :=
  empty_targets_amended envW6 none rfl

/-! ## Character and strip lemmas (towards C10) -/

/-- `Char.ofNat` at a valid codepoint keeps its numeric value. -/
theorem char_toNat_ofNat_valid {n : Nat} (h : n.isValidChar) :
    (Char.ofNat n).toNat = n := by
  rw [Char.ofNat, dif_pos h]
  rfl

/-- Unfolded form of `Char.toLower`. -/
theorem char_toLower_eq (c : Char) :
    Char.toLower c =
      if c.toNat ≥ 65 ∧ c.toNat ≤ 90 then Char.ofNat (c.toNat + 32) else c := rfl

/-- Whitespace characters by numeric value. -/
theorem char_isWhitespace_toNat {c : Char} (h : c.isWhitespace = true) :
    c.toNat = 32 ∨ c.toNat = 9 ∨ c.toNat = 13 ∨ c.toNat = 10 := by
  simp only [Char.isWhitespace, Bool.or_eq_true, decide_eq_true_eq] at h
  rcases h with ((h | h) | h) | h <;> subst h <;> simp

/-- Lowercasing never turns a non-whitespace character into whitespace. -/
theorem isWhitespace_toLower {c : Char} (h : c.isWhitespace = false) :
    (Char.toLower c).isWhitespace = false := by
  rw [char_toLower_eq]
  split_ifs with hc
  · by_contra hw
    rw [Bool.not_eq_false] at hw
    have h2 := char_isWhitespace_toNat hw
    rw [char_toNat_ofNat_valid (Or.inl (by omega))] at h2
    omega
  · exact h

/-- `Char.toLower` is idempotent. -/
theorem char_toLower_toLower (c : Char) :
    Char.toLower (Char.toLower c) = Char.toLower c := by
  conv_lhs => rw [char_toLower_eq c]
  conv_rhs => rw [char_toLower_eq c]
  split_ifs with hc
  · rw [char_toLower_eq, char_toNat_ofNat_valid (Or.inl (by omega)), if_neg (by omega)]
  · rw [char_toLower_eq c, if_neg hc]

/-- The head of `dropWhile p` never satisfies `p`. -/
theorem head?_dropWhile_eq_false {p : α → Bool} {l : List α} {a : α}
    (h : (l.dropWhile p).head? = some a) : p a = false := by
  have h2 := List.head?_dropWhile_not p l
  rw [h] at h2
  exact h2

/-- `dropWhile` is the identity when the head already fails the predicate. -/
theorem dropWhile_eq_self_of_head {p : α → Bool} {l : List α}
    (h : ∀ a ∈ l.head?, p a = false) : l.dropWhile p = l := by
  cases l with
  | nil => rfl
  | cons a t =>
    rw [List.dropWhile_cons_of_neg]
    have := h a (by simp)
    simp [this]

/-- `dropWhile` keeps the last element when its result is non-empty. -/
theorem getLast?_dropWhile (p : α → Bool) (l : List α)
    (h : l.dropWhile p ≠ []) : (l.dropWhile p).getLast? = l.getLast? := by
  conv_rhs => rw [← List.takeWhile_append_dropWhile (p := p) (l := l)]
  rw [List.getLast?_append_of_ne_nil _ h]

/-- A list with non-whitespace head and last is fixed by `stripL`. -/
theorem stripL_eq_self {l : List Char}
    (hh : ∀ a ∈ l.head?, a.isWhitespace = false)
    (hl : ∀ a ∈ l.getLast?, a.isWhitespace = false) : stripL l = l := by
  unfold stripL
  rw [dropWhile_eq_self_of_head hh,
    dropWhile_eq_self_of_head (fun a ha => hl a (by rwa [List.head?_reverse] at ha)),
    List.reverse_reverse]

/-- The head of a stripped list is not whitespace. -/
theorem stripL_head_not_ws (l : List Char) :
    ∀ a ∈ (stripL l).head?, a.isWhitespace = false := by
  intro a ha
  unfold stripL at ha
  rw [List.head?_reverse] at ha
  by_cases hB :
      (List.dropWhile Char.isWhitespace
        (List.dropWhile Char.isWhitespace l).reverse) = []
  · rw [hB] at ha
    simp at ha
  · rw [getLast?_dropWhile _ _ hB, List.getLast?_reverse] at ha
    exact head?_dropWhile_eq_false ha

/-- The last element of a stripped list is not whitespace. -/
theorem stripL_getLast_not_ws (l : List Char) :
    ∀ a ∈ (stripL l).getLast?, a.isWhitespace = false := by
  intro a ha
  unfold stripL at ha
  rw [List.getLast?_reverse] at ha
  exact head?_dropWhile_eq_false ha

/-- Python `strip` is idempotent. -/
theorem stripL_idem (l : List Char) : stripL (stripL l) = stripL l :=
  stripL_eq_self (stripL_head_not_ws l) (stripL_getLast_not_ws l)

/-- `pyStrip` on strings is idempotent. -/
theorem pyStrip_idem (s : String) : pyStrip (pyStrip s) = pyStrip s :=
  congrArg String.mk (stripL_idem s.data)

/-! ## `normalize_url` is idempotent on its range (towards C10) -/

/-- `pyLower` is idempotent. -/
theorem pyLower_idem (s : String) : pyLower (pyLower s) = pyLower s := by
  apply String.ext
  show (s.data.map Char.toLower).map Char.toLower = s.data.map Char.toLower
  rw [List.map_map]
  exact List.map_congr_left (fun a _ => char_toLower_toLower a)

/-- A string that is already stripped, lowercased, scheme-carrying and
host-bearing is a fixed point of `normalize_url`. -/
theorem normalize_url_fix {u : String}
    (hh : ∀ a ∈ u.data.head?, a.isWhitespace = false)
    (hl : ∀ a ∈ u.data.getLast?, a.isWhitespace = false)
    (hlow : pyLower u = u)
    (hne : u.data ≠ [])
    (hsw : pyStartsWith u "http://" = true ∨ pyStartsWith u "https://" = true)
    (hnet : netlocOf u ≠ "") :
    normalize_url u = some u := by
  have hstrip : pyStrip u = u := by
    unfold pyStrip
    rw [stripL_eq_self hh hl]
  have hco : coerce_scheme u = u := by
    unfold coerce_scheme
    rcases hsw with h | h <;> simp [h]
  have hu : ¬ u = "" := fun he => hne (by rw [he])
  rw [normalize_url_eq, hstrip, hlow, hco, if_neg hu, if_neg hnet]

/-- The head of a string with a `pyStartsWith` prefix is the prefix's head. -/
theorem pyStartsWith_head {s p : String} (h : pyStartsWith s p = true) {c : Char}
    (hc : p.data.head? = some c) : s.data.head? = some c := by
  unfold pyStartsWith at h
  rw [List.isPrefixOf_iff_prefix] at h
  obtain ⟨t, ht⟩ := h
  rw [← ht, List.head?_append, hc]
  rfl


/-- `normalize_url` is idempotent on its own output. -/
theorem normalize_url_roundtrip {raw u : String} (h : normalize_url raw = some u) :
    normalize_url u = some u := by
  rw [normalize_url_eq] at h
  split_ifs at h with h1 h2
  obtain rfl : coerce_scheme (pyLower (pyStrip raw)) = u := by simpa using h
  have hmdata : (pyLower (pyStrip raw)).data = (stripL raw.data).map Char.toLower := rfl
  have hmne : (pyLower (pyStrip raw)).data ≠ [] := by
    intro hnil
    apply h1
    apply String.ext
    show stripL raw.data = []
    rw [hmdata] at hnil
    exact List.map_eq_nil_iff.mp hnil
  have hmlast : ∀ a ∈ (pyLower (pyStrip raw)).data.getLast?, a.isWhitespace = false := by
    intro a ha
    rw [hmdata, List.getLast?_map] at ha
    rw [Option.mem_def, Option.map_eq_some'] at ha
    obtain ⟨b, hb, rfl⟩ := ha
    exact isWhitespace_toLower (stripL_getLast_not_ws raw.data b (Option.mem_def.mpr hb))
  have hmlow : pyLower (pyLower (pyStrip raw)) = pyLower (pyStrip raw) :=
    pyLower_idem (pyStrip raw)
  by_cases hc : (!(pyStartsWith (pyLower (pyStrip raw)) "http://")
      && !(pyStartsWith (pyLower (pyStrip raw)) "https://")) = true
  · -- the https:// prefix was added
    have hcu : coerce_scheme (pyLower (pyStrip raw)) =
        "https://" ++ pyLower (pyStrip raw) := by
      unfold coerce_scheme
      rw [if_pos hc]
    rw [hcu] at h2 ⊢
    apply normalize_url_fix
    · intro a ha
      rw [String.data_append, List.head?_append, Option.mem_def] at ha
      replace ha : some 'h' = some a := ha
      obtain rfl : 'h' = a := by simpa using ha
      decide
    · intro a ha
      rw [String.data_append, List.getLast?_append_of_ne_nil _ hmne] at ha
      exact hmlast a ha
    · apply String.ext
      show ("https://" ++ pyLower (pyStrip raw)).data.map Char.toLower =
        ("https://" ++ pyLower (pyStrip raw)).data
      have hcomp : List.map (Char.toLower ∘ Char.toLower) (stripL raw.data) =
          List.map Char.toLower (stripL raw.data) :=
        List.map_congr_left (fun a _ => char_toLower_toLower a)
      rw [String.data_append, List.map_append,
        show ("https://").data.map Char.toLower = ("https://").data by decide,
        hmdata, List.map_map, hcomp]
    · rw [String.data_append]
      simp [hmne]
    · exact Or.inr (pyStartsWith_append_self "https://" _)
    · exact h2
  · -- the string already carries a scheme
    have hcu : coerce_scheme (pyLower (pyStrip raw)) = pyLower (pyStrip raw) := by
      unfold coerce_scheme
      rw [if_neg hc]
    rw [hcu] at h2 ⊢
    have hsw : pyStartsWith (pyLower (pyStrip raw)) "http://" = true ∨
        pyStartsWith (pyLower (pyStrip raw)) "https://" = true := by
      cases ha : pyStartsWith (pyLower (pyStrip raw)) "http://" with
      | true => exact Or.inl rfl
      | false =>
        cases hb : pyStartsWith (pyLower (pyStrip raw)) "https://" with
        | true => exact Or.inr rfl
        | false => simp [ha, hb] at hc
    apply normalize_url_fix
    · intro a ha
      have hhead : (pyLower (pyStrip raw)).data.head? = some 'h' := by
        rcases hsw with h | h
        · exact pyStartsWith_head h rfl
        · exact pyStartsWith_head h rfl
      rw [hhead] at ha
      obtain rfl : 'h' = a := by simpa using ha
      decide
    · exact hmlast
    · exact hmlow
    · exact hmne
    · exact hsw
    · exact h2

/-! ## `normalize_sites`: dedup and ordering (towards C10) -/

/-- The original `description` field of a raw element. -/
def rawDescOf : RawSite → String
  | .obj _ d _ _ => d
  | .str _ => ""

/-- Membership in `firstOccurDedup` implies membership in the list. -/
theorem mem_of_mem_firstOccurDedup {a : String} :
    ∀ l : List String, a ∈ firstOccurDedup l → a ∈ l := by
  intro l
  induction l using firstOccurDedup.induct with
  | case1 => simp [firstOccurDedup]
  | case2 b t ih =>
    intro h
    rw [firstOccurDedup] at h
    rcases List.mem_cons.mp h with rfl | h2
    · simp
    · have := ih h2
      rw [List.mem_filter] at this
      exact List.mem_cons_of_mem _ this.1

/-- `firstOccurDedup` has no duplicates. -/
theorem nodup_firstOccurDedup : ∀ l : List String, (firstOccurDedup l).Nodup := by
  intro l
  induction l using firstOccurDedup.induct with
  | case1 => simp [firstOccurDedup]
  | case2 a t ih =>
    rw [firstOccurDedup]
    refine List.nodup_cons.mpr ⟨?_, ih⟩
    intro hmem
    have hf := mem_of_mem_firstOccurDedup _ hmem
    rw [List.mem_filter] at hf
    simpa using hf.2

/-- One unfolding step of `normalize_sites_go`. -/
theorem normalize_sites_go_cons (seen : List String) (s : RawSite)
    (rest : List RawSite) :
    normalize_sites_go seen (s :: rest) =
      (match rawUrl s with
       | none => normalize_sites_go seen rest
       | some url =>
         if seen.contains url then normalize_sites_go seen rest
         else SiteEntry.mk url (rawDescN s) (rawTitleN s) (rawLogoN s) ::
           normalize_sites_go (url :: seen) rest) := rfl

/-- The URLs produced by the loop are the first-occurrence dedup of the
normalized input URLs not yet seen. -/
theorem normalize_sites_go_map_url :
    ∀ (raw : List RawSite) (seen : List String),
      (normalize_sites_go seen raw).map (·.url) =
        firstOccurDedup ((raw.filterMap rawUrl).filter
          (fun u => !(seen.contains u))) := by
  intro raw
  induction raw with
  | nil =>
    intro seen
    simp [normalize_sites_go, firstOccurDedup]
  | cons s rest ih =>
    intro seen
    cases hu : rawUrl s with
    | none =>
      have hgo : normalize_sites_go seen (s :: rest) = normalize_sites_go seen rest := by
        rw [normalize_sites_go_cons, hu]
      have hfm : (s :: rest).filterMap rawUrl = rest.filterMap rawUrl := by
        rw [List.filterMap_cons, hu]
      rw [hgo, hfm]
      exact ih seen
    | some url =>
      have hfm : (s :: rest).filterMap rawUrl = url :: rest.filterMap rawUrl := by
        rw [List.filterMap_cons, hu]
      rw [hfm]
      by_cases hs : seen.contains url = true
      · have hgo : normalize_sites_go seen (s :: rest) =
            normalize_sites_go seen rest := by
          rw [normalize_sites_go_cons, hu]
          exact if_pos hs
        have hfalse : (!(seen.contains url)) = false := by rw [hs]; rfl
        rw [hgo, List.filter_cons, hfalse]
        rw [if_neg (fun hc => Bool.false_ne_true hc)]
        exact ih seen
      · have hgo : normalize_sites_go seen (s :: rest) =
            SiteEntry.mk url (rawDescN s) (rawTitleN s) (rawLogoN s) ::
              normalize_sites_go (url :: seen) rest := by
          rw [normalize_sites_go_cons, hu]
          exact if_neg hs
        have htrue : (!(seen.contains url)) = true := by
          rw [Bool.eq_false_iff.mpr hs]
          rfl
        rw [hgo, List.map_cons, List.filter_cons, htrue, if_pos rfl, firstOccurDedup]
        congr 1
        rw [ih (url :: seen)]
        congr 1
        rw [List.filter_filter]
        apply List.filter_congr
        intro b hb
        rw [List.contains_cons]
        cases hbu : b == url with
        | false =>
          have hne : ¬ b = url := by
            intro he
            subst he
            simp at hbu
          cases hsc : seen.contains b <;> simp [hbu, hsc, hne]
        | true =>
          have he : b = url := eq_of_beq hbu
          cases hsc : seen.contains b <;> simp [hbu, hsc, he]

/-- Every output URL of `normalize_sites` is pairwise distinct, in order of
first occurrence of the normalized input URLs. -/
theorem normalize_sites_map_url (raw : List RawSite) :
    (normalize_sites raw).map (·.url) = firstOccurDedup (raw.filterMap rawUrl) := by
  unfold normalize_sites
  rw [normalize_sites_go_map_url raw []]
  congr 1
  apply List.filter_eq_self.mpr
  intro a _
  rfl

/-! ## `normalize_sites`: per-entry properties (towards C10) -/

/-- A URL emitted by the loop re-normalizes to itself. -/
theorem rawUrl_roundtrip {s : RawSite} {url : String} (h : rawUrl s = some url) :
    normalize_url url = some url := by
  cases s with
  | obj u d t l => exact normalize_url_roundtrip h
  | str str => exact normalize_url_roundtrip h

/-- The computed title is strip-fixed. -/
theorem rawTitleN_strip (s : RawSite) : pyStrip (rawTitleN s) = rawTitleN s := by
  cases s with
  | obj u d t l => exact pyStrip_idem t
  | str str => rfl

/-- The computed logo key is absent or a non-empty strip-fixed string. -/
theorem rawLogoN_props (s : RawSite) :
    rawLogoN s = none ∨ ∃ k, rawLogoN s = some k ∧ pyStrip k = k ∧ ¬ k = "" := by
  cases s with
  | str str => exact Or.inl rfl
  | obj u d t l =>
    by_cases h : pyStrip l = ""
    · refine Or.inl ?_
      show (if pyStrip l = "" then none else some (pyStrip l)) = none
      rw [if_pos h]
    · refine Or.inr ⟨pyStrip l, ?_, pyStrip_idem l, h⟩
      show (if pyStrip l = "" then none else some (pyStrip l)) = some (pyStrip l)
      rw [if_neg h]

/-- The computed description has at most 255 characters. -/
theorem rawDescN_le (s : RawSite) : (rawDescN s).data.length ≤ 255 := by
  cases s with
  | str str => simp [rawDescN]
  | obj u d t l =>
    show ((pyStrip d).data.take 255).length ≤ 255
    rw [List.length_take]
    exact Nat.min_le_left _ _

/-- When the stripped original description already fits in 255 characters,
the truncation is the identity. -/
theorem rawDescN_strip {s : RawSite}
    (h : (pyStrip (rawDescOf s)).data.length ≤ 255) :
    rawDescN s = pyStrip (rawDescOf s) := by
  cases s with
  | str str => rfl
  | obj u d t l =>
    apply String.ext
    show (pyStrip d).data.take 255 = (pyStrip d).data
    exact List.take_of_length_le h

/-- Structural properties of every entry emitted by the loop: the URL
re-normalizes to itself, title and logo key are strip-fixed, the description
is at most 255 characters, and — when no input description overflows the
truncation — the description is strip-fixed too. -/
theorem normalize_sites_go_props :
    ∀ (raw : List RawSite) (seen : List String), ∀ e ∈ normalize_sites_go seen raw,
      normalize_url e.url = some e.url
      ∧ pyStrip e.title = e.title
      ∧ (e.logoKey = none ∨ ∃ k, e.logoKey = some k ∧ pyStrip k = k ∧ ¬ k = "")
      ∧ e.description.data.length ≤ 255
      ∧ ((∀ r ∈ raw, (pyStrip (rawDescOf r)).data.length ≤ 255) →
          pyStrip e.description = e.description) := by
  intro raw
  induction raw with
  | nil =>
    intro seen e he
    simp [normalize_sites_go] at he
  | cons s rest ih =>
    intro seen e he
    cases hu : rawUrl s with
    | none =>
      have hgo : normalize_sites_go seen (s :: rest) = normalize_sites_go seen rest := by
        rw [normalize_sites_go_cons, hu]
      rw [hgo] at he
      obtain ⟨p1, p2, p3, p4, p5⟩ := ih seen e he
      exact ⟨p1, p2, p3, p4, fun h => p5 (fun r hr => h r (List.mem_cons_of_mem s hr))⟩
    | some url =>
      by_cases hs : seen.contains url = true
      · have hgo : normalize_sites_go seen (s :: rest) =
            normalize_sites_go seen rest := by
          rw [normalize_sites_go_cons, hu]
          exact if_pos hs
        rw [hgo] at he
        obtain ⟨p1, p2, p3, p4, p5⟩ := ih seen e he
        exact ⟨p1, p2, p3, p4, fun h => p5 (fun r hr => h r (List.mem_cons_of_mem s hr))⟩
      · have hgo : normalize_sites_go seen (s :: rest) =
            SiteEntry.mk url (rawDescN s) (rawTitleN s) (rawLogoN s) ::
              normalize_sites_go (url :: seen) rest := by
          rw [normalize_sites_go_cons, hu]
          exact if_neg hs
        rw [hgo] at he
        rcases List.mem_cons.mp he with rfl | hm
        · refine ⟨rawUrl_roundtrip hu, rawTitleN_strip s, rawLogoN_props s,
            rawDescN_le s, fun h => ?_⟩
          have hd := h s (List.mem_cons_self s rest)
          rw [rawDescN_strip hd]
          exact pyStrip_idem _
        · obtain ⟨p1, p2, p3, p4, p5⟩ := ih (url :: seen) e hm
          exact ⟨p1, p2, p3, p4, fun h => p5 (fun r hr => h r (List.mem_cons_of_mem s hr))⟩

/-- Feeding a list of already-normalized distinct entries back through the
loop reproduces it unchanged. -/
theorem normalize_sites_go_roundtrip :
    ∀ (out : List SiteEntry) (seen : List String),
      ((out.map (·.url)).Nodup) →
      (∀ e ∈ out, seen.contains e.url = false) →
      (∀ e ∈ out, normalize_url e.url = some e.url) →
      (∀ e ∈ out, pyStrip e.description = e.description ∧
        e.description.data.length ≤ 255) →
      (∀ e ∈ out, pyStrip e.title = e.title) →
      (∀ e ∈ out, e.logoKey = none ∨
        ∃ k, e.logoKey = some k ∧ pyStrip k = k ∧ ¬ k = "") →
      normalize_sites_go seen (out.map siteEntryToRaw) = out := by
  intro out
  induction out with
  | nil => intro seen _ _ _ _ _ _; rfl
  | cons e t ih =>
    intro seen hnd hseen hurl hdesc htitle hlogo
    obtain ⟨u, d, ti, lo⟩ := e
    have hu : rawUrl (siteEntryToRaw ⟨u, d, ti, lo⟩) = some u :=
      hurl _ (List.mem_cons_self _ t)
    have hd : rawDescN (siteEntryToRaw ⟨u, d, ti, lo⟩) = d := by
      obtain ⟨hd1, hd2⟩ := hdesc _ (List.mem_cons_self _ t)
      show pyTake (pyStrip d) 255 = d
      rw [hd1]
      apply String.ext
      exact List.take_of_length_le hd2
    have hti : rawTitleN (siteEntryToRaw ⟨u, d, ti, lo⟩) = ti :=
      htitle _ (List.mem_cons_self _ t)
    have hlo : rawLogoN (siteEntryToRaw ⟨u, d, ti, lo⟩) = lo := by
      rcases hlogo _ (List.mem_cons_self _ t) with hnone | ⟨k, hk, hks, hkne⟩
      · simp only at hnone
        subst hnone
        rfl
      · simp only at hk
        subst hk
        show (if pyStrip k = "" then none else some (pyStrip k)) = some k
        rw [hks, if_neg hkne]
    have hcontains : seen.contains u = false := hseen _ (List.mem_cons_self _ t)
    have hstep : normalize_sites_go seen
          ((SiteEntry.mk u d ti lo :: t).map siteEntryToRaw) =
        SiteEntry.mk u (rawDescN (siteEntryToRaw ⟨u, d, ti, lo⟩))
            (rawTitleN (siteEntryToRaw ⟨u, d, ti, lo⟩))
            (rawLogoN (siteEntryToRaw ⟨u, d, ti, lo⟩)) ::
          normalize_sites_go (u :: seen) (t.map siteEntryToRaw) := by
      rw [List.map_cons, normalize_sites_go_cons, hu]
      exact if_neg (by rw [hcontains]; exact Bool.false_ne_true)
    rw [hstep, hd, hti, hlo]
    congr 1
    have hndt : ((t.map (·.url)).Nodup) := (List.nodup_cons.mp (by simpa using hnd)).2
    have hunotin : u ∉ t.map (·.url) := (List.nodup_cons.mp (by simpa using hnd)).1
    apply ih (u :: seen) hndt
    · intro e2 he2
      rw [List.contains_cons]
      have h1 : seen.contains e2.url = false := hseen e2 (List.mem_cons_of_mem _ he2)
      have h2 : (e2.url == u) = false := by
        cases hq : e2.url == u
        · rfl
        · exfalso
          apply hunotin
          rw [← eq_of_beq hq]
          exact List.mem_map_of_mem (·.url) he2
      rw [h1, h2]
      rfl
    · exact fun e2 he2 => hurl e2 (List.mem_cons_of_mem _ he2)
    · exact fun e2 he2 => hdesc e2 (List.mem_cons_of_mem _ he2)
    · exact fun e2 he2 => htitle e2 (List.mem_cons_of_mem _ he2)
    · exact fun e2 he2 => hlogo e2 (List.mem_cons_of_mem _ he2)

/-! ## Claim C10: `normalize_sites` -/

/-- A 256-character description whose 255-character truncation ends in a
space: `"a" * 254 + " b"`. -/
def longDesc : String := ⟨List.replicate 254 'a' ++ [' ', 'b']⟩

set_option maxRecDepth 16384 in
/-- C10 counterexample: `normalize_sites` is NOT idempotent.  Truncating
this description to 255 characters exposes a trailing space, which the
second application strips away, changing the entry. -/
theorem normalize_sites_counterexample :
    normalize_sites ((normalize_sites [RawSite.obj "a.example" longDesc "" ""]).map
      siteEntryToRaw) ≠ normalize_sites [RawSite.obj "a.example" longDesc "" ""] := by
  decide

/-- C10 amended: `normalize_sites` returns entries with pairwise-distinct
normalized URLs, ordered by first occurrence of each normalized URL in the
input, every description truncated to at most 255 characters; and it is
idempotent on every input whose stripped descriptions already fit in 255
characters (in general a truncated description may end in whitespace that a
second application strips, so idempotence fails). -/
theorem normalize_sites_correct (raw : List RawSite) :
    ((normalize_sites raw).map (·.url)).Nodup
    ∧ (normalize_sites raw).map (·.url) = firstOccurDedup (raw.filterMap rawUrl)
    ∧ (∀ e ∈ normalize_sites raw, e.description.data.length ≤ 255)
    ∧ ((∀ r ∈ raw, (pyStrip (rawDescOf r)).data.length ≤ 255) →
        normalize_sites ((normalize_sites raw).map siteEntryToRaw) =
          normalize_sites raw) := by
  have hmap := normalize_sites_map_url raw
  have hnd : ((normalize_sites raw).map (·.url)).Nodup := by
    rw [hmap]
    exact nodup_firstOccurDedup _
  refine ⟨hnd, hmap, ?_, ?_⟩
  · intro e he
    exact (normalize_sites_go_props raw [] e he).2.2.2.1
  · intro hraw
    apply normalize_sites_go_roundtrip (normalize_sites raw) [] hnd
    · intro e _
      rfl
    · intro e he
      exact (normalize_sites_go_props raw [] e he).1
    · intro e he
      exact ⟨(normalize_sites_go_props raw [] e he).2.2.2.2 hraw,
        (normalize_sites_go_props raw [] e he).2.2.2.1⟩
    · intro e he
      exact (normalize_sites_go_props raw [] e he).2.1
    · intro e he
      exact (normalize_sites_go_props raw [] e he).2.2.1

/-- Witness for C10 (amended) on a concrete list with duplicates and short
descriptions. -/
theorem normalize_sites_correct_witness :
    (∀ r ∈ [RawSite.obj "b.example" " hi " "T" " k ", RawSite.str "B.example/"],
      (pyStrip (rawDescOf r)).data.length ≤ 255)
    ∧ normalize_sites
        ((normalize_sites [RawSite.obj "b.example" " hi " "T" " k ",
          RawSite.str "B.example/"]).map siteEntryToRaw) =
      normalize_sites [RawSite.obj "b.example" " hi " "T" " k ",
        RawSite.str "B.example/"] :=
  ⟨by decide,
   (normalize_sites_correct [RawSite.obj "b.example" " hi " "T" " k ",
      RawSite.str "B.example/"]).2.2.2 (by decide)⟩

end FunkedUpShift
